import Mathlib

/-!
Shallow embedding of the spreadsheet write-reconciliation logic of
`PostToGoogleSpreadsheet.py` / `PostToMicrosoftSpreadsheet.py` and of the
merge-by-key utility `merge_data.py` from the `liquid-library` repository,
together with proofs about the embedded definitions.

Python values are modelled as follows: strings are `String`, lists are
`List`, dicts are association lists with Python dict semantics (assignment
updates the first matching key in place, otherwise appends; lookup returns
the first match), machine integers are `Nat` (no overflow is reachable in
the modelled code), and raising an exception is modelled by `Except`.
HTTP responses are modelled by boolean / data oracles passed as arguments:
the embedded control flow branches on them exactly where the source
branches on `response.status_code`.
-/

set_option autoImplicit false

namespace LiquidLibrary

/-! ## Python dict primitives (association lists) -/

/-- Python `d.get(k)` / `d.get(k, None)`: value of the first entry whose key
equals `k`, if any. -/
def pyFind? {κ α : Type} [BEq κ] (d : List (κ × α)) (k : κ) : Option α :=
  (d.find? (fun kv => kv.1 == k)).map (·.2)

/-- Python `d.get(k, v0)`: lookup with a default. -/
def pyFindD {κ α : Type} [BEq κ] (d : List (κ × α)) (k : κ) (v0 : α) : α :=
  (pyFind? d k).getD v0

/-- Python `d[k] = v`: replace the value of the first entry with key `k`
(keeping its position, as a Python dict does), or append a new entry. -/
def pyAssign {κ α : Type} [BEq κ] (d : List (κ × α)) (k : κ) (v : α) : List (κ × α) :=
  match d with
  | [] => [(k, v)]
  | (k', v') :: rest => if k' == k then (k', v) :: rest else (k', v') :: pyAssign rest k v

/-- Python `base.update(other)`: assign every entry of `other` into `base`,
in order. -/
def dictUpdate {κ α : Type} [BEq κ] (base other : List (κ × α)) : List (κ × α) :=
  other.foldl (fun b kv => pyAssign b kv.1 kv.2) base

/-! ## Column-letter arithmetic

Embeds `_column_letter` (PostToMicrosoftSpreadsheet.py lines 706-713, and the
identical copy in PostToGoogleSpreadsheet.py lines 788-795) and
`_column_number` (lines 715-720).  Letters are modelled as their character
codes (`ord`-values), so `chr(col_num % 26 + ord('A'))` is `(col_num % 26) + 65`.
The source loop `while col_num > 0: col_num -= 1; ...; col_num //= 26`
terminates because `(n - 1) / 26 < n`; the embedding makes this explicit with
a fuel argument that is always sufficient (`fuel = n`). -/

/-- Loop of `_column_letter`, with fuel.  Each iteration prepends the digit
`(n - 1) % 26 + ord A` and continues with `(n - 1) / 26`. -/
def column_letter_aux : Nat → Nat → List Nat
  | 0, _ => []
  | fuel + 1, n =>
    if n = 0 then [] else column_letter_aux fuel ((n - 1) / 26) ++ [(n - 1) % 26 + 65]

/-- `_column_letter`: convert a 1-indexed column number to its letter string
(as a list of character codes): 1 → "A", 26 → "Z", 27 → "AA". -/
def column_letter (n : Nat) : List Nat :=
  column_letter_aux n n

/-- Python `char.upper()` on a single character code. -/
def pyUpperCode (c : Nat) : Nat :=
  if 97 ≤ c ∧ c ≤ 122 then c - 32 else c

/-- `_column_number`: fold `result = result * 26 + (ord(char.upper()) - ord(A) + 1)`
over the letter string. -/
def column_number (letters : List Nat) : Nat :=
  letters.foldl (fun acc c => acc * 26 + (pyUpperCode c - 65 + 1)) 0

/-! ## Shared tabular helpers (PostToGoogleSpreadsheet.py / PostToMicrosoftSpreadsheet.py)

Both processors contain character-identical copies of the input parsers and
of the row/header manipulation inside `_update_rows` / `_upsert_rows`; these
shared pieces are embedded once below and used by the per-processor
definitions. -/

/-- A parsed record / Python dict of strings. -/
abbrev Record := List (String × String)

/-- Python `set(xs) - set(ys)` (`incoming_headers_set - existing_headers_set`),
kept as a list; only membership, emptiness and its sorted form are ever
consumed, matching how the set is used in the source. -/
def setDiff (xs ys : List String) : List String :=
  xs.filter (fun x => !decide (x ∈ ys))

/-- Python `sorted(...)` on strings (lexicographic by code points). -/
def sortStrings (xs : List String) : List String :=
  List.insertionSort (· ≤ ·) xs

/-- Python `"," .join(xs)`-style joining used in error messages. -/
def joinComma (xs : List String) : String :=
  String.intercalate ", " xs

/-- The dict comprehension
`row_dict = {headers[i]: row[i] if i < len(row) else '' for i in range(len(headers))}`
(rows shorter than the header list are padded with empty strings; on duplicate
header names the later index wins, as in a Python dict comprehension). -/
def buildRowDict (hs : List String) (row : List String) : Record :=
  (List.range hs.length).foldl (fun d i => pyAssign d (hs.getD i "") (row.getD i "")) []

/-- The `updated_row` loop of `_update_rows` / `_upsert_rows`: for every
existing (destination) header, skip it when the strategy is IGNORE_FIELDS and
the header is unrecognized, otherwise emit `row_dict.get(header, '')`. -/
def buildUpdatedRow (existingHeaders : List String) (strategy : String)
    (unrecognized : List String) (rowDict : Record) : List String :=
  (existingHeaders.filter
      (fun h => !decide (strategy = "IGNORE_FIELDS" ∧ h ∈ unrecognized))).map
    (fun h => pyFindD rowDict h "")

/-- Components of the A1-notation range address
`f"{sheet_name}!A{row_number}:{col_letter(len(existing_headers))}{row_number}"`
together with the request body `{'values': [updated_row]}` of the ranged patch
issued for one matched row. -/
structure RangePatch where
  startCol : Nat
  endColLetters : List Nat
  rowNumber : Nat
  values : List (List String)
deriving DecidableEq

/-- The ranged patch built for one matched incoming row in UPDATE / UPSERT
(both processors): range `A{row}:{letter(len(existing_headers))}{row}` with
body `[updated_row]`. -/
def matchedRowPatch (existingHeaders : List String) (strategy : String)
    (unrecognized : List String) (rowDict : Record) (rowNumber : Nat) : RangePatch :=
  { startCol := 1
    endColLetters := column_letter existingHeaders.length
    rowNumber := rowNumber
    values := [buildUpdatedRow existingHeaders strategy unrecognized rowDict] }

/-! ## APPEND mode (C1)

`PostToGoogleSpreadsheet._append_rows` (lines 346-387) and
`PostToMicrosoftSpreadsheet._append_rows` (lines 410-441).  The fetched used
range (`_get_sheet_data` / `_get_worksheet_range` result, `[]` on a 404) is
passed in as `existingData`; the HTTP write response is the boolean oracle. -/

/-- `PostToGoogleSpreadsheet._append_rows`: emptiness test
`is_new_sheet = not existing_data` (Python truthiness of the fetched list),
optional header injection, then one `:append` POST whose body holds
`values_to_append`.  Returns `len(rows)` and the posted values. -/
def googleAppendRows (existingData : List (List String)) (hs : List String)
    (rows : List (List String)) (includeHeader : Bool) (appendOk : Bool) :
    Except String (Nat × List (List String)) :=
  let isNewSheet := existingData.isEmpty
  let valuesToAppend := (if isNewSheet && includeHeader then [hs] else []) ++ rows
  if appendOk then Except.ok (rows.length, valuesToAppend)
  else Except.error "Failed to append rows"

/-- Observable outcome of `PostToMicrosoftSpreadsheet._append_rows`: the
computed start row, the end-column letters of the patched range, the patched
values and the returned row count. -/
structure MsAppendResult where
  startRow : Nat
  endColLetters : List Nat
  values : List (List String)
  rowsWritten : Nat
deriving DecidableEq

/-- `PostToMicrosoftSpreadsheet._append_rows`: same emptiness test and header
injection as the Google variant, then a ranged PATCH at
`A{start_row}:{letter(len(headers))}{...}` where
`start_row = len(existing_data) + 1 if existing_data else 1`. -/
def msAppendRows (existingData : List (List String)) (hs : List String)
    (rows : List (List String)) (includeHeader : Bool) (patchOk : Bool) :
    Except String MsAppendResult :=
  let isNewWorksheet := existingData.isEmpty
  let valuesToAppend := (if isNewWorksheet && includeHeader then [hs] else []) ++ rows
  let startRow := if existingData.isEmpty then 1 else existingData.length + 1
  if patchOk then
    Except.ok ⟨startRow, column_letter hs.length, valuesToAppend, rows.length⟩
  else Except.error "Failed to append rows"

/-! ## UPDATE mode (C2, C9)

`PostToGoogleSpreadsheet._update_rows` (lines 576-663) and
`PostToMicrosoftSpreadsheet._update_rows` (lines 492-580).  The two functions
share their pre-loop phase verbatim (emptiness check, header-mismatch
handling, identifier lookup, existing-row index); they differ only in how
patches are issued: one ranged PATCH per matched row with a per-row status
check (Microsoft) versus a single `values:batchUpdate` POST collecting every
matched row (Google). -/

/-- HTTP oracles for one `_update_rows` invocation. -/
structure UpdateEnv where
  /-- Response of the `_add_new_columns` write (ADD_COLUMNS strategy). -/
  addColumnsOk : Bool
  /-- Used range re-fetched after ADD_COLUMNS added the new header cells. -/
  refetched : List (List String)
  /-- Per-row PATCH response by destination row number (Microsoft). -/
  msPatchOk : Nat → Bool
  /-- Response of the single `values:batchUpdate` POST (Google). -/
  gBatchOk : Bool

/-- Shared pre-loop phase of `_update_rows`: reject an empty destination,
split headers from data rows, and apply the header-mismatch strategy.
Returns the (possibly re-fetched) existing headers and rows together with the
`unrecognized_headers` set computed against the original headers. -/
def mismatchPhase (existingData : List (List String)) (hs : List String)
    (strategy : String) (env : UpdateEnv) :
    Except String (List String × List (List String) × List String) :=
  match existingData with
  | [] => Except.error "Cannot UPDATE: Sheet is empty. Use APPEND or UPSERT mode instead."
  | eh :: er =>
    let unrec := setDiff hs eh
    if unrec.isEmpty then Except.ok (eh, er, unrec)
    else if strategy = "FAIL" then
      Except.error ("Data contains unrecognized field header names: "
        ++ joinComma (sortStrings unrec) ++ ". Recognized headers: "
        ++ joinComma (sortStrings (hs.filter (fun x => decide (x ∈ eh)))))
    else if strategy = "IGNORE_FIELDS" then
      Except.ok (eh, er, unrec)
    else if strategy = "ADD_COLUMNS" then
      if !env.addColumnsOk then Except.error "Failed to add new columns"
      else
        match env.refetched with
        | [] => Except.error "IndexError"
        | eh2 :: er2 => Except.ok (eh2, er2, unrec)
    else Except.ok (eh, er, unrec)

/-- Identifier-column lookup: raise when a configured identifier field is
missing from the destination headers, otherwise collect its column index. -/
def identifierPhase (eh : List String) (ids : List String) : Except String (List Nat) :=
  ids.mapM (fun f =>
    if f ∈ eh then Except.ok (List.indexOf f eh)
    else Except.error ("Identifier field not found in sheet headers: " ++ f))

/-- The `existing_map` construction: for each existing data row (0-indexed
position `row_idx`), key it by its identifier-column tuple (missing trailing
cells contribute empty strings) and map it to destination row `row_idx + 2`. -/
def buildExistingMap (existingRows : List (List String)) (idIdxs : List Nat) :
    List (List String × Nat) :=
  existingRows.enum.foldl
    (fun m p => pyAssign m (idIdxs.map (fun i => p.2.getD i "")) (p.1 + 2)) []

/-- The Microsoft per-row update loop: for each incoming row that matches an
existing row, issue the ranged patch `matchedRowPatch` and count it only when
the PATCH response is 200 (`env.msPatchOk`); a failed patch is logged and the
loop continues. -/
def msUpdateLoop (eh : List String) (strategy : String) (unrec : List String)
    (hs : List String) (ids : List String) (emap : List (List String × Nat))
    (patchOk : Nat → Bool) (rows : List (List String)) : Nat :=
  rows.foldl
    (fun cnt row =>
      let rd := buildRowDict hs row
      let key := ids.map (fun f => pyFindD rd f "")
      match pyFind? emap key with
      | some rowNumber =>
        let _patch := matchedRowPatch eh strategy unrec rd rowNumber
        if patchOk rowNumber then cnt + 1 else cnt
      | none => cnt)
    0

/-- The Google update loop: queue the ranged patch of every matched incoming
row into `updates` and count it immediately; nothing is sent yet. -/
def googleUpdateLoop (eh : List String) (strategy : String) (unrec : List String)
    (hs : List String) (ids : List String) (emap : List (List String × Nat))
    (rows : List (List String)) : List RangePatch × Nat :=
  rows.foldl
    (fun acc row =>
      let rd := buildRowDict hs row
      let key := ids.map (fun f => pyFindD rd f "")
      match pyFind? emap key with
      | some rowNumber =>
        (acc.1 ++ [matchedRowPatch eh strategy unrec rd rowNumber], acc.2 + 1)
      | none => acc)
    ([], 0)

/-- `PostToMicrosoftSpreadsheet._update_rows`: pre-loop phase, then the
per-row patch loop; returns the count of rows whose PATCH succeeded. -/
def msUpdateRows (existingData : List (List String)) (hs : List String)
    (rows : List (List String)) (ids : List String) (strategy : String)
    (env : UpdateEnv) : Except String Nat :=
  match mismatchPhase existingData hs strategy env with
  | Except.error e => Except.error e
  | Except.ok (eh, er, unrec) =>
    match identifierPhase eh ids with
    | Except.error e => Except.error e
    | Except.ok idIdxs =>
      let emap := buildExistingMap er idIdxs
      Except.ok (msUpdateLoop eh strategy unrec hs ids emap env.msPatchOk rows)

/-- `PostToGoogleSpreadsheet._update_rows`: pre-loop phase, then the queueing
loop; `if updates: self._batch_update(...)` issues one `values:batchUpdate`
POST for all queued patches and raises when it fails; the matched count is
returned otherwise. -/
def googleUpdateRows (existingData : List (List String)) (hs : List String)
    (rows : List (List String)) (ids : List String) (strategy : String)
    (env : UpdateEnv) : Except String Nat :=
  match mismatchPhase existingData hs strategy env with
  | Except.error e => Except.error e
  | Except.ok (eh, er, unrec) =>
    match identifierPhase eh ids with
    | Except.error e => Except.error e
    | Except.ok idIdxs =>
      let emap := buildExistingMap er idIdxs
      let (updates, rowsUpdated) := googleUpdateLoop eh strategy unrec hs ids emap rows
      if updates.isEmpty then Except.ok rowsUpdated
      else if env.gBatchOk then Except.ok rowsUpdated
      else Except.error "Failed to batch update"

/-- Declarative characterisation of the matched incoming rows: destination
row number and row dict of every incoming row whose identifier tuple occurs
in the existing-row index, in incoming order. -/
def updateMatches (hs : List String) (ids : List String)
    (emap : List (List String × Nat)) (rows : List (List String)) :
    List (Nat × Record) :=
  rows.filterMap (fun row =>
    let rd := buildRowDict hs row
    (pyFind? emap (ids.map (fun f => pyFindD rd f ""))).map (fun rn => (rn, rd)))

/-! ## Workbook session lifecycle (C4)

`PostToMicrosoftSpreadsheet.transform` (lines 187-295) together with
`_create_session` (297-317) and `_close_session` (319-336).  The body from
session creation onwards sits inside `try: ...` whose `except` handler only
logs and returns the failure outcome.  The embedding records the sequence of
workbook HTTP calls issued, so that "the session was closed" is
`MsCall.closeSession ∈ trace`. -/

/-- Workbook-level HTTP calls issued by one `transform` invocation (APPEND
mode): `createSession` POST, used-range GET, ranged PATCH, `closeSession`
POST. -/
inductive MsCall where
  | createSession
  | getUsedRange
  | patchRange
  | closeSession
deriving DecidableEq

/-- Response oracles for one Microsoft `transform` invocation in APPEND mode. -/
structure MsEnv where
  /-- `createSession` returned 201 (otherwise `_create_session` logs a warning
  and returns `None`). -/
  createOk : Bool
  /-- Result of the used-range GET inside `_append_rows`: the fetched rows, or
  an exception for a non-200/404 status. -/
  usedRange : Except String (List (List String))
  /-- The ranged PATCH of `_append_rows` returned 200. -/
  patchOk : Bool

/-- The session-relevant fragment of `transform` for APPEND mode, from
`session_id = self._create_session(...)` to the returned relationship:
`try: create; append; close; return success` with an `except` handler that
logs and returns `failure` (and does not close the session).  `_close_session`
returns immediately when `session_id` is `None`.  The result is the
relationship of the returned `FlowFileTransformResult` and the trace of
workbook calls issued. -/
def msTransformAppend (env : MsEnv) (hs : List String) (rows : List (List String))
    (includeHeader : Bool) : String × List MsCall :=
  let sessionId : Option Nat := if env.createOk then some 0 else none
  let trace := [MsCall.createSession]
  match env.usedRange with
  | Except.error _ => ("failure", trace ++ [MsCall.getUsedRange])
  | Except.ok existingData =>
    let trace := trace ++ [MsCall.getUsedRange]
    match msAppendRows existingData hs rows includeHeader env.patchOk with
    | Except.error _ => ("failure", trace ++ [MsCall.patchRange])
    | Except.ok _ =>
      let trace := trace ++ [MsCall.patchRange]
      match sessionId with
      | none => ("success", trace)
      | some _ => ("success", trace ++ [MsCall.closeSession])

/-! ## CSV input parsing (C5)

`_parse_csv` (PostToGoogleSpreadsheet.py lines 265-276 and the identical copy
in PostToMicrosoftSpreadsheet.py lines 355-366), and the no-data guard
`if not headers or not rows:` of `transform` that follows it. -/

/-- Split a character list on a separator character (the behaviour of
`str.split(sep)` for a one-character separator: the empty input yields one
empty field). -/
def splitListOn (sep : Char) : List Char → List (List Char)
  | [] => [[]]
  | c :: cs =>
    if c = sep then [] :: splitListOn sep cs
    else
      match splitListOn sep cs with
      | [] => [[c]]
      | l :: ls => (c :: l) :: ls

/-- `list(csv.reader(io.StringIO(content)))` for quote-free content with
newline-separated records: empty content yields no records, a trailing
newline does not create a trailing record, an empty line yields the empty
record `[]`, and every other line is split on commas. -/
def csvRead (content : String) : List (List String) :=
  if content = "" then []
  else
    let lines := splitListOn '\n' content.data
    let lines := if lines.getLast? = some [] then lines.dropLast else lines
    lines.map (fun l => if l = [] then [] else (splitListOn ',' l).map String.mk)

/-- `_parse_csv`: `(None, None)` when the reader produced no records at all,
otherwise the first record as headers and the remaining records as data rows. -/
def parse_csv (content : String) :
    Option (List String) × Option (List (List String)) :=
  match csvRead content with
  | [] => (none, none)
  | headers :: dataRows => (some headers, some dataRows)

/-- The engine guard `if not headers or not rows:` in `transform` (Python
falsiness: `None` and the empty list both count); when it fires, `transform`
returns the success relationship with `rows_written = "0"` and performs no
write. -/
def noDataGuard (p : Option (List String) × Option (List (List String))) : Bool :=
  (match p.1 with
   | none => true
   | some hs => hs.isEmpty)
  ||
  (match p.2 with
   | none => true
   | some rs => rs.isEmpty)

/-! ## JSON values and JSON input parsing (C6)

`_parse_json` (PostToGoogleSpreadsheet.py lines 278-302 and the identical
copy in PostToMicrosoftSpreadsheet.py lines 368-392), over a model of parsed
JSON values. -/

/-- A parsed JSON value (`json.loads` result).  Objects are association
lists in key order; a parsed object has no duplicate keys. -/
inductive J where
  | str (s : String)
  | num (n : Int)
  | bool (b : Bool)
  | null
  | arr (xs : List J)
  | obj (fields : List (String × J))

/-- Python exception kinds raised by the embedded code. -/
inductive PyErr where
  | indexError
  | typeError
  | keyError
  | attributeError
  | valueError (msg : String)
  | parserError (msg : String)
deriving DecidableEq

/-- `key in data` for a parsed JSON object. -/
def hasKey (fields : List (String × J)) (k : String) : Bool :=
  fields.any (fun kv => kv.1 == k)

/-- `row.get(h, d)` on a parsed JSON object with a string key. -/
def pyGetJ (fields : List (String × J)) (k : String) (d : J) : J :=
  (pyFind? fields k).getD d

/-- Python `x[0]`: first element of a list, first character of a string
(IndexError when empty), KeyError for an object (its keys are strings, not
the integer 0), TypeError for non-subscriptable values. -/
def getItem0 : J → Except PyErr J
  | J.arr [] => Except.error PyErr.indexError
  | J.arr (x :: _) => Except.ok x
  | J.str s =>
    match s.data with
    | [] => Except.error PyErr.indexError
    | c :: _ => Except.ok (J.str (String.mk [c]))
  | J.obj _ => Except.error PyErr.keyError
  | _ => Except.error PyErr.typeError

/-- Python iteration `for x in v`: list elements, characters of a string,
keys of an object; TypeError otherwise. -/
def pyIter : J → Except PyErr (List J)
  | J.arr xs => Except.ok xs
  | J.str s => Except.ok (s.data.map (fun c => J.str (String.mk [c])))
  | J.obj fields => Except.ok (fields.map (fun kv => J.str kv.1))
  | _ => Except.error PyErr.typeError

/-- `row.get(h, d)` where `h` is an arbitrary JSON value: lists and objects
are unhashable (TypeError); any other non-string key never matches the
string keys of a parsed object and returns the default. -/
def pyGetJKey (fields : List (String × J)) (k : J) (d : J) : Except PyErr J :=
  match k with
  | J.arr _ => Except.error PyErr.typeError
  | J.obj _ => Except.error PyErr.typeError
  | J.str s => Except.ok (pyGetJ fields s d)
  | _ => Except.ok d

/-- The `ValueError` text raised for an unsupported JSON shape. -/
def unsupportedJsonMsg : String :=
  "Unsupported JSON format. Expected array of objects or object with headers and rows fields."

/-- Formats 2 and 3 of `_parse_json` (the `isinstance(data, dict)` branch)
plus the trailing `raise ValueError`: look up `headers` and `rows`, index
`rows_data[0]`, and return `(headers, rows_data)` verbatim when the first
row is a list, or re-extract by key when the first row is an object. -/
def parse_json_dictFormats (data : J) : Except PyErr (J × J) :=
  match data with
  | J.obj fields =>
    if hasKey fields "headers" && hasKey fields "rows" then
      let headers := pyGetJ fields "headers" J.null
      let rowsData := pyGetJ fields "rows" J.null
      match getItem0 rowsData with
      | Except.error e => Except.error e
      | Except.ok first =>
        match first with
        | J.arr _ => Except.ok (headers, rowsData)
        | J.obj _ => do
          let hl ← pyIter headers
          let rl ← pyIter rowsData
          let rows ← rl.mapM (fun row =>
            match row with
            | J.obj rf => do
              let vs ← hl.mapM (fun h => pyGetJKey rf h (J.str ""))
              Except.ok (J.arr vs)
            | _ => Except.error PyErr.attributeError)
          Except.ok (headers, J.arr rows)
        | _ => Except.error (PyErr.valueError unsupportedJsonMsg)
    else Except.error (PyErr.valueError unsupportedJsonMsg)
  | _ => Except.error (PyErr.valueError unsupportedJsonMsg)

/-- `_parse_json`: Format 1 (`isinstance(data, list) and len(data) > 0 and
isinstance(data[0], dict)`) takes the first object's keys as headers and
extracts every row by key (`row.get(h, '')`, AttributeError on a non-object
element); any other shape falls through to the dict formats. -/
def parse_json (data : J) : Except PyErr (J × J) :=
  match data with
  | J.arr (J.obj fields :: rest) =>
    let headers := fields.map (·.1)
    do
      let rows ← (J.obj fields :: rest).mapM (fun row =>
        match row with
        | J.obj rf => Except.ok (J.arr (headers.map (fun h => pyGetJ rf h (J.str ""))))
        | _ => Except.error PyErr.attributeError)
      Except.ok (J.arr (headers.map J.str), J.arr rows)
  | _ => parse_json_dictFormats data

/-! ## merge_data: JSON sub-path traversal (C7)

`MergeableJSONData.load_file` (merge_data.py lines 197-224). -/

/-- `J.isObj v` is true exactly for JSON objects. -/
def J.isObj : J → Bool
  | J.obj _ => true
  | _ => false

/-- Decimal digit value of a character, if any. -/
def digitVal? (c : Char) : Option Nat :=
  if 48 ≤ c.toNat ∧ c.toNat ≤ 57 then some (c.toNat - 48) else none

/-- Accumulate a decimal number over a digit list; `none` on any non-digit. -/
def parseDigitsAux : List Char → Nat → Option Nat
  | [], acc => some acc
  | c :: cs, acc =>
    match digitVal? c with
    | none => none
    | some d => parseDigitsAux cs (acc * 10 + d)

/-- Python `int(key)` for the plain decimal (optionally negative) strings that
reach the list-index branch; any other string raises `ValueError`, modelled
as `none`. -/
def pyInt? (s : String) : Option Int :=
  match s.data with
  | [] => none
  | c :: rest =>
    if c = Char.ofNat 45 then
      match rest with
      | [] => none
      | _ => (parseDigitsAux rest 0).map (fun n => -(n : Int))
    else (parseDigitsAux (c :: rest) 0).map (fun n => (n : Int))

/-- One iteration of the `for key in keys:` traversal loop of `load_file`.
For a dict, `entry_structure.get(key, {})` silently defaults a missing key to
the empty object.  For a list, `int(key)` failing raises
`ParserError("path ... does not fit the delivered structure")`; when the key
does parse, the source line `if len(list) > key:` applies `len` to the
builtin type `list` (the name is not bound locally), which raises a
`TypeError` at runtime, so both the in-range indexing branch and the
`ParserError("Index error: ...")` branch below it are unreachable.  Any other
value matches neither `isinstance` test and passes through unchanged. -/
def jsonPathStep (jsonPath : String) (entry : J) (key : String) : Except PyErr J :=
  match entry with
  | J.obj fields => Except.ok (pyGetJ fields key (J.obj []))
  | J.arr _ =>
    match pyInt? key with
    | none =>
      Except.error (PyErr.parserError
        ("path " ++ jsonPath ++ " does not fit the delivered structure"))
    | some _ => Except.error PyErr.typeError
  | _ => Except.ok entry

/-- `MergeableJSONData.load_file`: traverse the configured sub-path, then
classify the reached structure.  A list is accepted when every element is an
object (`entry.get(self.id_key, None)` raises AttributeError otherwise), an
object is accepted as-is, and anything else raises
`ParserError("Could not parse the JSON file ...")`. -/
def jsonLoadFile (filePath : String) (jsonPath : Option String) (base : J) :
    Except PyErr J := do
  let keys := match jsonPath with
    | none => []
    | some p => (splitListOn '.' p.data).map String.mk
  let entry ← keys.foldlM (fun e k => jsonPathStep (jsonPath.getD "") e k) base
  match entry with
  | J.arr entries =>
    match entries.find? (fun e => !e.isObj) with
    | some _ => Except.error PyErr.attributeError
    | none => Except.ok (J.arr entries)
  | J.obj _ => Except.ok entry
  | _ =>
    Except.error (PyErr.parserError
      ("Could not parse the JSON file " ++ filePath
        ++ " - it neither contains a list, nor a JSON object."))

/-! ## merge_data: merge by identifier key (C3)

`MergeableData.merge_data` (merge_data.py lines 61-81), at the level of the
`internal_dict` of string records: for every record of the update data (its
`internal_dict.values()`, in insertion order), look up its id-key value
(`other_dict.get(self.id_key, None)`, hence an `Option String` key) in the
base map; shallow-merge over the stored record when present
(`self.internal_dict[other_key].update(other_dict)`), insert it otherwise. -/

/-- One iteration of the `merge_data` loop for one update record. -/
def mergeOne (idKey : String) (m : List (Option String × Record))
    (other : Record) : List (Option String × Record) :=
  let otherKey : Option String := pyFind? other idKey
  match pyFind? m otherKey with
  | some baseRec => pyAssign m otherKey (dictUpdate baseRec other)
  | none => pyAssign m otherKey other

/-- `MergeableData.merge_data` over the list of update records (the
`manage_new` hook is a no-op for CSV data and, for JSON data, only appends to
the serialization-order list, which does not affect the merged map). -/
def merge_data (idKey : String) (m : List (Option String × Record))
    (others : List Record) : List (Option String × Record) :=
  others.foldl (mergeOne idKey) m

/-! ## merge_data: CSV field inference and save (C10)

`MergeableCSVData.infer_field_names` (merge_data.py lines 155-159) and
`MergeableCSVData.save_file` (lines 161-167). -/

/-- Python `set.add`-style insertion used to model `key_set.update(...)`:
membership-preserving, duplicates never added. -/
def pySetAdd (s : List String) (x : String) : List String :=
  if x ∈ s then s else s ++ [x]

/-- The `key_set` accumulation: `for entry in self.data.values():
key_set.update(entry.keys())` (a Python set; only membership and the sorted
image are consumed). -/
def keyUnion (records : List Record) : List String :=
  records.foldl (fun s r => (r.map Prod.fst).foldl pySetAdd s) []

/-- `infer_field_names`: `sorted(list(key_set))`. -/
def infer_field_names (records : List Record) : List String :=
  sortStrings (keyUnion records)

/-- One output row of `csv.DictWriter.writerows`: the record's value for each
field name in order, the empty-string restval for a missing key. -/
def save_row (fieldNames : List String) (r : Record) : List String :=
  fieldNames.map (fun f => pyFindD r f "")

/-- `save_file`: `writer.writeheader()` followed by
`writer.writerows(self.data.values())`, with `fieldnames = infer_field_names()`. -/
def save_file_output (records : List Record) : List (List String) :=
  infer_field_names records :: records.map (save_row (infer_field_names records))

theorem column_number_append_digit (xs : List Nat) (d : Nat) :
    column_number (xs ++ [d]) = column_number xs * 26 + (pyUpperCode d - 65 + 1) := by
  simp [column_number, List.foldl_append]

theorem column_letter_aux_roundtrip :
    ∀ fuel n, n ≤ fuel → column_number (column_letter_aux fuel n) = n := by
  intro fuel
  induction fuel with
  | zero =>
    intro n hn
    interval_cases n
    simp [column_letter_aux, column_number]
  | succ fuel ih =>
    intro n hn
    by_cases h0 : n = 0
    · simp [column_letter_aux, h0, column_number]
    · have hrec : (n - 1) / 26 ≤ fuel := by
        have h1 : (n - 1) / 26 ≤ n - 1 := Nat.div_le_self _ _
        omega
      have hup : pyUpperCode ((n - 1) % 26 + 65) = (n - 1) % 26 + 65 := by
        have : (n - 1) % 26 < 26 := Nat.mod_lt _ (by omega)
        simp only [pyUpperCode]
        rw [if_neg]
        omega
      rw [column_letter_aux, if_neg h0, column_number_append_digit, ih _ hrec, hup]
      have := Nat.div_add_mod (n - 1) 26
      omega

theorem column_letter_roundtrip (n : Nat) :
    column_number (column_letter n) = n :=
  column_letter_aux_roundtrip n n le_rfl

/-- C8: for every integer n in [1, 1000], converting the column number n to
its spreadsheet column-letter string and converting that string back yields
n again: `_column_number(_column_letter(n)) == n`. -/
theorem column_roundtrip_in_range (n : Nat) (h1 : 1 ≤ n) (h2 : n ≤ 1000) :
    column_number (column_letter n) = n :=
  column_letter_roundtrip n

/-- Witness for `column_roundtrip_in_range` at n = 27 (→ "AA" → 27). -/
theorem column_roundtrip_in_range_witness :
    1 ≤ 27 ∧ 27 ≤ 1000 ∧ column_number (column_letter 27) = 27 :=
  ⟨by decide, by decide, column_roundtrip_in_range 27 (by decide) (by decide)⟩

/-! ## Association-list lemmas -/

theorem pyFind?_pyAssign_self {κ α : Type} [BEq κ] [LawfulBEq κ]
    (d : List (κ × α)) (k : κ) (v : α) :
    pyFind? (pyAssign d k v) k = some v := by
  induction d with
  | nil => simp [pyAssign, pyFind?, List.find?]
  | cons kv rest ih =>
    obtain ⟨k', v'⟩ := kv
    by_cases h : k' == k
    · simp [pyAssign, h, pyFind?, List.find?]
    · simp only [pyAssign, h, Bool.false_eq_true, if_false]
      simpa [pyFind?, List.find?, h] using ih

theorem pyFind?_pyAssign_ne {κ α : Type} [BEq κ] [LawfulBEq κ]
    (d : List (κ × α)) (k k' : κ) (v : α) (h : k' ≠ k) :
    pyFind? (pyAssign d k v) k' = pyFind? d k' := by
  induction d with
  | nil =>
    simp [pyAssign, pyFind?, List.find?, beq_false_of_ne (Ne.symm h)]
  | cons kv rest ih =>
    obtain ⟨k0, v0⟩ := kv
    by_cases h0 : k0 == k
    · have : ¬ (k0 == k') := by
        intro hc
        exact h ((eq_of_beq hc).symm.trans (eq_of_beq h0))
      simp [pyAssign, h0, pyFind?, List.find?, this]
    · simp only [pyAssign, h0, Bool.false_eq_true, if_false]
      by_cases h1 : k0 == k'
      · simp [pyFind?, List.find?, h1]
      · simpa [pyFind?, List.find?, h1] using ih

theorem pyFind?_eq_none_of_not_mem {κ α : Type} [BEq κ] [LawfulBEq κ]
    (d : List (κ × α)) (k : κ) (h : k ∉ d.map Prod.fst) :
    pyFind? d k = none := by
  induction d with
  | nil => rfl
  | cons kv rest ih =>
    simp only [List.map_cons, List.mem_cons] at h
    push_neg at h
    have hb : ¬ (kv.1 == k) := by
      intro hc
      exact h.1 (eq_of_beq hc).symm
    simp only [pyFind?, List.find?, hb, Bool.false_eq_true, if_false]
    exact ih h.2

theorem pyFind?_dictUpdate_not_mem {κ α : Type} [BEq κ] [LawfulBEq κ]
    (b o : List (κ × α)) (k : κ) (h : k ∉ o.map Prod.fst) :
    pyFind? (dictUpdate b o) k = pyFind? b k := by
  induction o generalizing b with
  | nil => rfl
  | cons kv rest ih =>
    simp only [List.map_cons, List.mem_cons] at h
    push_neg at h
    show pyFind? (dictUpdate (pyAssign b kv.1 kv.2) rest) k = pyFind? b k
    rw [ih _ h.2, pyFind?_pyAssign_ne _ _ _ _ h.1]

theorem pyFind?_dictUpdate_mem {κ α : Type} [BEq κ] [LawfulBEq κ]
    (b o : List (κ × α)) (k : κ) (v : α)
    (hnd : (o.map Prod.fst).Nodup) (h : pyFind? o k = some v) :
    pyFind? (dictUpdate b o) k = some v := by
  induction o generalizing b with
  | nil => simp [pyFind?, List.find?] at h
  | cons kv rest ih =>
    simp only [List.map_cons, List.nodup_cons] at hnd
    by_cases hk : kv.1 == k
    · have hkeq : kv.1 = k := eq_of_beq hk
      have hv : v = kv.2 := by
        simp [pyFind?, List.find?, hk] at h
        exact h.symm
      show pyFind? (dictUpdate (pyAssign b kv.1 kv.2) rest) k = some v
      rw [pyFind?_dictUpdate_not_mem _ _ _ (hkeq ▸ hnd.1), hkeq, hv,
        pyFind?_pyAssign_self]
    · have h' : pyFind? rest k = some v := by
        simpa [pyFind?, List.find?, hk] using h
      exact ih _ hnd.2 h'

/-! ## C1: APPEND-mode emptiness test -/

/-- C1 counterexample: a destination whose fetched used range is exactly one
all-blank row (`[[""]]`) is NOT treated as empty by `_append_rows` of either
processor — with `include_header_row true` the appended batch is the bare
rows, with no header prepended (and the Microsoft variant starts at row 2,
i.e. after the blank row). -/
theorem append_blank_row_counterexample :
    googleAppendRows [[""]] ["h1", "h2"] [["a", "b"]] true true
        = Except.ok (1, [["a", "b"]])
    ∧ msAppendRows [[""]] ["h1", "h2"] [["a", "b"]] true true
        = Except.ok ⟨2, [66], [["a", "b"]], 1⟩
    ∧ ([["a", "b"]] : List (List String)) ≠ [["h1", "h2"], ["a", "b"]] :=
  ⟨rfl, rfl, by decide⟩

/-- C1 (amended): in APPEND mode the destination counts as empty exactly when
the fetched used range has zero rows; with `include_header_row true` the
header row is prepended iff the fetched range is empty, and a destination
whose fetched range is exactly one all-blank row is NOT treated as empty (no
header is prepended and the batch starts after the existing rows). -/
theorem append_header_only_when_zero_rows (existingData : List (List String))
    (hs : List String) (rows : List (List String)) :
    (existingData = [] →
      googleAppendRows existingData hs rows true true
          = Except.ok (rows.length, hs :: rows)
      ∧ msAppendRows existingData hs rows true true
          = Except.ok ⟨1, column_letter hs.length, hs :: rows, rows.length⟩)
    ∧ (existingData ≠ [] →
      googleAppendRows existingData hs rows true true
          = Except.ok (rows.length, rows)
      ∧ msAppendRows existingData hs rows true true
          = Except.ok ⟨existingData.length + 1, column_letter hs.length, rows,
              rows.length⟩) := by
  constructor
  · rintro rfl
    exact ⟨rfl, rfl⟩
  · intro h
    have hne : existingData.isEmpty = false := by
      cases existingData with
      | nil => simp at h
      | cons a l => rfl
    constructor <;> simp [googleAppendRows, msAppendRows, hne]

/-- Witness for `append_header_only_when_zero_rows` at the all-blank one-row
destination `[[""]]`. -/
theorem append_header_only_when_zero_rows_witness :
    googleAppendRows [[""]] ["h"] [["x"]] true true = Except.ok (1, [["x"]])
    ∧ msAppendRows [[""]] ["h"] [["x"]] true true
        = Except.ok ⟨2, [65], [["x"]], 1⟩ := by
  have h := (append_header_only_when_zero_rows [[""]] ["h"] [["x"]]).2 (by decide)
  exact h

/-! ## C4: workbook session lifecycle -/

/-- C4 counterexample: with a created session, a failing write PATCH makes
`transform` return the failure outcome WITHOUT ever issuing the
`closeSession` call — the `except` handler only logs and returns. -/
theorem session_not_closed_on_failure_counterexample :
    msTransformAppend ⟨true, Except.ok [], false⟩ ["h"] [["x"]] true
        = ("failure", [MsCall.createSession, MsCall.getUsedRange, MsCall.patchRange])
    ∧ MsCall.closeSession
        ∉ (msTransformAppend ⟨true, Except.ok [], false⟩ ["h"] [["x"]] true).2 :=
  ⟨rfl, by decide⟩

/-- C4 (amended): the workbook session is closed exactly on the success path
(and only when the `createSession` call had returned a session id); on every
failure path raised after session creation, the invocation returns without
closing the session. -/
theorem session_closed_iff_success (env : MsEnv) (hs : List String)
    (rows : List (List String)) (includeHeader : Bool) :
    MsCall.closeSession ∈ (msTransformAppend env hs rows includeHeader).2
      ↔ (msTransformAppend env hs rows includeHeader).1 = "success"
        ∧ env.createOk = true := by
  obtain ⟨c, ur, p⟩ := env
  cases c <;> cases ur <;> cases p <;>
    simp [msTransformAppend, msAppendRows]

/-! ## C5: CSV inputs with no data rows -/

/-- C5 counterexample: a CSV input consisting of a header line and no data
rows does NOT produce the `(None, None)` sentinel — `_parse_csv` returns the
headers together with an empty data-row list. -/
theorem parse_csv_header_only_counterexample :
    parse_csv "a,b\n" = (some ["a", "b"], some [])
    ∧ parse_csv "a,b\n"
        ≠ ((none, none) : Option (List String) × Option (List (List String))) := by
  exact ⟨by decide, by decide⟩

/-- C5 (amended): only wholly empty CSV content yields the `(None, None)`
sentinel; a header line with no data rows yields `(headers, [])`.  In every
case with at most one CSV record the engine guard `if not headers or not
rows:` fires, so `transform` returns the no-op success outcome with zero
rows written. -/
theorem parse_csv_no_data_guard :
    parse_csv "" = (none, none)
    ∧ ∀ content : String, (csvRead content).length ≤ 1 →
        noDataGuard (parse_csv content) = true := by
  refine ⟨rfl, ?_⟩
  intro content h
  cases hcr : csvRead content with
  | nil => simp [parse_csv, hcr, noDataGuard]
  | cons hd tl =>
    cases tl with
    | nil => simp [parse_csv, hcr, noDataGuard]
    | cons b t =>
      rw [hcr] at h
      simp at h

/-- Witness for `parse_csv_no_data_guard` on the header-only input
`"a,b\n"`. -/
theorem parse_csv_no_data_guard_witness :
    (csvRead "a,b\n").length ≤ 1 ∧ noDataGuard (parse_csv "a,b\n") = true :=
  ⟨by decide, parse_csv_no_data_guard.2 "a,b\n" (by decide)⟩

/-! ## C6: JSON headers+rows object -/

/-- C6 counterexample: a JSON object with sequence-valued `headers` and an
EMPTY `rows` sequence makes `_parse_json` raise `IndexError` (from
`rows_data[0]`) instead of returning `(headers, rows)`. -/
theorem parse_json_empty_rows_counterexample :
    parse_json (J.obj [("headers", J.arr [J.str "a"]), ("rows", J.arr [])])
        = Except.error PyErr.indexError
    ∧ ∀ hr : J × J,
        parse_json (J.obj [("headers", J.arr [J.str "a"]), ("rows", J.arr [])])
          ≠ Except.ok hr := by
  have h1 : parse_json (J.obj [("headers", J.arr [J.str "a"]), ("rows", J.arr [])])
      = Except.error PyErr.indexError := rfl
  refine ⟨h1, ?_⟩
  intro hr h
  rw [h1] at h
  exact Except.noConfusion h

/-- C6 (amended): for every JSON object whose `rows` value is a NONEMPTY
sequence whose first element is a sequence, `_parse_json` returns exactly
`(headers, rows)` unchanged (the `headers` value is passed through without
any validation); when the rows sequence is empty it raises `IndexError`
instead, which the engine surfaces as a failure. -/
theorem parse_json_headers_rows_verbatim (hs : J) (r0 : List J) (rest : List J) :
    parse_json (J.obj [("headers", hs), ("rows", J.arr (J.arr r0 :: rest))])
      = Except.ok (hs, J.arr (J.arr r0 :: rest)) := rfl

/-! ## C7: merge_data JSON sub-path traversal -/

/-- C7 evidence: evaluating `MergeableJSONData.load_file` on documents whose
sub-path hits a list shows the `len(list)` slip: ANY integer index into a
list raises `TypeError` (first conjunct, in-range index 0), a non-integer
index raises the `ParserError` naming the whole configured path rather than
the segment (second conjunct), and a missing object key does not fail at all
— it silently resolves to the empty object (third conjunct). -/
theorem json_subpath_typeerror_evidence :
    jsonLoadFile "input.json" (some "0") (J.arr [J.arr [J.str "x"]])
        = Except.error PyErr.typeError
    ∧ jsonLoadFile "input.json" (some "items") (J.arr [])
        = Except.error (PyErr.parserError
            "path items does not fit the delivered structure")
    ∧ jsonLoadFile "input.json" (some "missing") (J.obj [("a", J.num 1)])
        = Except.ok (J.obj []) :=
  ⟨rfl, rfl, rfl⟩

/-! ## C3: shallow merge by identifier key -/

theorem pyFind?_ne_none_of_mem {κ α : Type} [BEq κ] [LawfulBEq κ]
    (d : List (κ × α)) (k : κ) (h : k ∈ d.map Prod.fst) :
    pyFind? d k ≠ none := by
  induction d with
  | nil => simp at h
  | cons kv rest ih =>
    by_cases hk : kv.1 == k
    · simp [pyFind?, List.find?, hk]
    · simp only [List.map_cons, List.mem_cons] at h
      rcases h with h | h
      · exact absurd (beq_of_eq h.symm) hk
      · simpa [pyFind?, List.find?, hk] using ih h

/-- C3: for every base record and patch record whose id-key values are equal
(the patch record's id-key value is the key under which the base record is
stored), `merge_data` stores the shallow merge `base.update(patch)` at that
key, and in the merged record every field present in the patch takes the
patch's value while every field present only in the base keeps the base's
value. -/
theorem merge_by_key_shallow (idKey : String) (m : List (Option String × Record))
    (k : Option String) (baseRec p : Record)
    (hbase : pyFind? m k = some baseRec)
    (hpkey : pyFind? p idKey = k)
    (hbkey : pyFind? baseRec idKey = k)
    (hnd : (p.map Prod.fst).Nodup) :
    pyFind? (merge_data idKey m [p]) k = some (dictUpdate baseRec p)
    ∧ (∀ f v, pyFind? p f = some v → pyFind? (dictUpdate baseRec p) f = some v)
    ∧ (∀ f, pyFind? p f = none →
        pyFind? (dictUpdate baseRec p) f = pyFind? baseRec f) := by
  refine ⟨?_, ?_, ?_⟩
  · show pyFind? (mergeOne idKey m p) k = _
    unfold mergeOne
    simp only [hpkey, hbase]
    exact pyFind?_pyAssign_self m k _
  · intro f v hf
    exact pyFind?_dictUpdate_mem _ _ _ _ hnd hf
  · intro f hf
    apply pyFind?_dictUpdate_not_mem
    intro hmem
    exact pyFind?_ne_none_of_mem p f hmem hf

/-- Witness for `merge_by_key_shallow` on the example of the specification:
merging patch `{id:1, a:1, b:2}` into base `{id:1, a:0, c:3}` yields
`{id:1, a:1, b:2, c:3}` (as the record
`[("id","1"), ("a","1"), ("c","3"), ("b","2")]`). -/
theorem merge_by_key_shallow_witness :
    pyFind? (merge_data "id" [(some "1", [("id", "1"), ("a", "0"), ("c", "3")])]
        [[("id", "1"), ("a", "1"), ("b", "2")]]) (some "1")
      = some [("id", "1"), ("a", "1"), ("c", "3"), ("b", "2")] := by
  have h := merge_by_key_shallow "id"
      [(some "1", [("id", "1"), ("a", "0"), ("c", "3")])] (some "1")
      [("id", "1"), ("a", "0"), ("c", "3")] [("id", "1"), ("a", "1"), ("b", "2")]
      (by decide) (by decide) (by decide) (by decide)
  rw [h.1]
  decide

/-! ## C9: matched-row patches span the full destination width -/

theorem mem_setDiff {x : String} {xs ys : List String} :
    x ∈ setDiff xs ys ↔ x ∈ xs ∧ x ∉ ys := by
  simp [setDiff]

theorem buildUpdatedRow_no_skip (eh hs : List String) (strategy : String)
    (rd : Record) :
    buildUpdatedRow eh strategy (setDiff hs eh) rd
      = eh.map (fun h => pyFindD rd h "") := by
  unfold buildUpdatedRow
  congr 1
  apply List.filter_eq_self.mpr
  intro h hmem
  simp only [Bool.not_eq_true', decide_eq_false_iff_not]
  rintro ⟨-, hin⟩
  exact (mem_setDiff.mp hin).2 hmem

theorem pyFind?_buildRowDict_not_mem (hs row : List String) (k : String)
    (h : k ∉ hs) :
    pyFind? (buildRowDict hs row) k = none := by
  have haux : ∀ (l : List Nat) (d : Record), (∀ i ∈ l, i < hs.length) →
      pyFind? (l.foldl (fun d i => pyAssign d (hs.getD i "") (row.getD i "")) d) k
        = pyFind? d k := by
    intro l
    induction l with
    | nil =>
      intro d _
      rfl
    | cons i l ih =>
      intro d hb
      rw [List.foldl_cons, ih _ (fun j hj => hb j (List.mem_cons_of_mem _ hj))]
      apply pyFind?_pyAssign_ne
      intro hk
      have hi : i < hs.length := hb i (List.mem_cons_self _ _)
      have : hs.getD i "" ∈ hs := by
        rw [List.getD_eq_getElem hs "" hi]
        exact List.getElem_mem hi
      exact h (hk ▸ this)
  unfold buildRowDict
  rw [haux _ _ (fun i hi => List.mem_range.mp hi)]
  rfl

/-- C9: in UPDATE and UPSERT modes, the ranged patch built for a matched
incoming row spans columns A through the last destination header column
(`A{row}:{letter(len(existing_headers))}{row}`), its value row has exactly
one cell per destination header, and every destination header absent from
the incoming headers gets the empty string in that row — its existing cell
is overwritten, not left unchanged. -/
theorem update_patch_full_width (eh hs row : List String) (strategy : String)
    (rowNumber j : Nat) (h : String)
    (hjh : eh.get? j = some h) (habs : h ∉ hs) :
    (matchedRowPatch eh strategy (setDiff hs eh) (buildRowDict hs row)
        rowNumber).startCol = 1
    ∧ (matchedRowPatch eh strategy (setDiff hs eh) (buildRowDict hs row)
        rowNumber).endColLetters = column_letter eh.length
    ∧ (matchedRowPatch eh strategy (setDiff hs eh) (buildRowDict hs row)
        rowNumber).values
      = [buildUpdatedRow eh strategy (setDiff hs eh) (buildRowDict hs row)]
    ∧ (buildUpdatedRow eh strategy (setDiff hs eh) (buildRowDict hs row)).length
      = eh.length
    ∧ (buildUpdatedRow eh strategy (setDiff hs eh) (buildRowDict hs row)).get? j
      = some "" := by
  refine ⟨rfl, rfl, rfl, ?_, ?_⟩
  · rw [buildUpdatedRow_no_skip]
    exact List.length_map _ _
  · rw [buildUpdatedRow_no_skip, List.get?_map, hjh]
    simp [pyFindD, pyFind?_buildRowDict_not_mem hs row h habs]

/-- Witness for `update_patch_full_width`: destination headers
`["id", "extra"]`, incoming headers `["id"]`, matched row `["1"]`: the patch
row has width 2 and overwrites the `extra` cell with the empty string. -/
theorem update_patch_full_width_witness :
    (["id", "extra"] : List String).get? 1 = some "extra"
    ∧ "extra" ∉ ["id"]
    ∧ (buildUpdatedRow ["id", "extra"] "FAIL" (setDiff ["id"] ["id", "extra"])
        (buildRowDict ["id"] ["1"])).length = 2
    ∧ (buildUpdatedRow ["id", "extra"] "FAIL" (setDiff ["id"] ["id", "extra"])
        (buildRowDict ["id"] ["1"])).get? 1 = some "" := by
  have h := update_patch_full_width ["id", "extra"] ["id"] ["1"] "FAIL" 5 1 "extra"
      (by decide) (by decide)
  exact ⟨by decide, by decide, h.2.2.2.1, h.2.2.2.2⟩

/-! ## C2: per-row versus batched patch failure semantics -/

theorem msUpdateLoop_eq_countP (eh : List String) (strategy : String)
    (unrec hs ids : List String) (emap : List (List String × Nat))
    (patchOk : Nat → Bool) (rows : List (List String)) :
    msUpdateLoop eh strategy unrec hs ids emap patchOk rows
      = (updateMatches hs ids emap rows).countP (fun m => patchOk m.1) := by
  have haux : ∀ (rows : List (List String)) (acc : Nat),
      rows.foldl
        (fun cnt row =>
          let rd := buildRowDict hs row
          let key := ids.map (fun f => pyFindD rd f "")
          match pyFind? emap key with
          | some rowNumber =>
            let _patch := matchedRowPatch eh strategy unrec rd rowNumber
            if patchOk rowNumber then cnt + 1 else cnt
          | none => cnt) acc
      = acc + (updateMatches hs ids emap rows).countP (fun m => patchOk m.1) := by
    intro rows
    induction rows with
    | nil =>
      intro acc
      simp [updateMatches]
    | cons row rest ih =>
      intro acc
      rw [List.foldl_cons]
      cases hfind : pyFind? emap
          (ids.map (fun f => pyFindD (buildRowDict hs row) f "")) with
      | none =>
        simp only [hfind]
        rw [ih]
        simp [updateMatches, List.filterMap_cons, hfind]
      | some rn =>
        simp only [hfind]
        rw [ih]
        simp only [updateMatches, List.filterMap_cons, hfind, Option.map_some',
          List.countP_cons]
        by_cases hp : patchOk rn <;> simp [hp, updateMatches] <;> omega
  unfold msUpdateLoop
  rw [haux]
  omega

theorem googleUpdateLoop_eq (eh : List String) (strategy : String)
    (unrec hs ids : List String) (emap : List (List String × Nat))
    (rows : List (List String)) :
    googleUpdateLoop eh strategy unrec hs ids emap rows
      = ((updateMatches hs ids emap rows).map
          (fun m => matchedRowPatch eh strategy unrec m.2 m.1),
        (updateMatches hs ids emap rows).length) := by
  have haux : ∀ (rows : List (List String)) (acc : List RangePatch × Nat),
      rows.foldl
        (fun acc row =>
          let rd := buildRowDict hs row
          let key := ids.map (fun f => pyFindD rd f "")
          match pyFind? emap key with
          | some rowNumber =>
            (acc.1 ++ [matchedRowPatch eh strategy unrec rd rowNumber], acc.2 + 1)
          | none => acc) acc
      = (acc.1 ++ (updateMatches hs ids emap rows).map
            (fun m => matchedRowPatch eh strategy unrec m.2 m.1),
         acc.2 + (updateMatches hs ids emap rows).length) := by
    intro rows
    induction rows with
    | nil =>
      intro acc
      simp [updateMatches]
    | cons row rest ih =>
      intro acc
      rw [List.foldl_cons]
      cases hfind : pyFind? emap
          (ids.map (fun f => pyFindD (buildRowDict hs row) f "")) with
      | none =>
        simp only [hfind]
        rw [ih]
        simp [updateMatches, List.filterMap_cons, hfind]
      | some rn =>
        simp only [hfind]
        rw [ih]
        simp only [updateMatches, List.filterMap_cons, hfind, Option.map_some',
          List.map_cons, List.length_cons, Prod.mk.injEq]
        constructor
        · simp
        · omega
  unfold googleUpdateLoop
  rw [haux]
  simp

/-- C2 counterexample: in `PostToGoogleSpreadsheet._update_rows` the patches
of ALL matched rows are issued as one `values:batchUpdate` request.  On the
same destination and input with two matched incoming rows, a failing batch
response aborts the whole operation with an exception (no count of remaining
rows is returned), while a succeeding one reports both rows — there is no
per-row logging-and-continuing, contradicting the claim for this processor. -/
theorem update_batch_abort_counterexample :
    googleUpdateRows [["id", "v"], ["1", "x"], ["2", "y"]] ["id", "v"]
        [["1", "a"], ["2", "b"]] ["id"] "FAIL" ⟨true, [], fun _ => true, false⟩
      = Except.error "Failed to batch update"
    ∧ googleUpdateRows [["id", "v"], ["1", "x"], ["2", "y"]] ["id", "v"]
        [["1", "a"], ["2", "b"]] ["id"] "FAIL" ⟨true, [], fun _ => true, true⟩
      = Except.ok 2 :=
  ⟨rfl, rfl⟩

/-- C2 (amended): in the Microsoft processor's UPDATE mode a patch failure for
an individual matched row is logged and does not abort the remaining rows of
the batch, and `rows_written` equals the number of matched rows whose PATCH
succeeded; in the Google processor's UPDATE mode all matched rows go into a
single batch request — when it succeeds `rows_written` is the full matched
count, and when it fails the whole operation aborts with an exception. -/
theorem update_patch_failure_semantics (existingData : List (List String))
    (hs : List String) (rows : List (List String)) (ids : List String)
    (strategy : String) (env : UpdateEnv) (eh : List String)
    (er : List (List String)) (unrec : List String) (idIdxs : List Nat)
    (hm : mismatchPhase existingData hs strategy env = Except.ok (eh, er, unrec))
    (hi : identifierPhase eh ids = Except.ok idIdxs) :
    msUpdateRows existingData hs rows ids strategy env
      = Except.ok ((updateMatches hs ids (buildExistingMap er idIdxs) rows).countP
          (fun m => env.msPatchOk m.1))
    ∧ (env.gBatchOk = true →
        googleUpdateRows existingData hs rows ids strategy env
          = Except.ok (updateMatches hs ids (buildExistingMap er idIdxs) rows).length)
    ∧ (env.gBatchOk = false →
        updateMatches hs ids (buildExistingMap er idIdxs) rows ≠ [] →
        googleUpdateRows existingData hs rows ids strategy env
          = Except.error "Failed to batch update") := by
  refine ⟨?_, ?_, ?_⟩
  · unfold msUpdateRows
    simp only [hm]
    simp only [hi]
    rw [msUpdateLoop_eq_countP]
  · intro hb
    unfold googleUpdateRows
    simp only [hm]
    simp only [hi]
    rw [googleUpdateLoop_eq]
    cases hml : updateMatches hs ids (buildExistingMap er idIdxs) rows with
    | nil => simp
    | cons mh mt => simp [hb]
  · intro hb hne
    unfold googleUpdateRows
    simp only [hm]
    simp only [hi]
    rw [googleUpdateLoop_eq]
    cases hml : updateMatches hs ids (buildExistingMap er idIdxs) rows with
    | nil => exact absurd hml hne
    | cons mh mt => simp [hb]

/-- Witness for `update_patch_failure_semantics`: one matched row whose
Microsoft per-row PATCH fails gives `rows_written = 0` without aborting,
while the Google batch path (succeeding batch) reports the matched count 1. -/
theorem update_patch_failure_semantics_witness :
    msUpdateRows [["id", "v"], ["1", "x"]] ["id", "v"] [["1", "a"]] ["id"] "FAIL"
        ⟨true, [], fun _ => false, true⟩ = Except.ok 0
    ∧ googleUpdateRows [["id", "v"], ["1", "x"]] ["id", "v"] [["1", "a"]] ["id"]
        "FAIL" ⟨true, [], fun _ => false, true⟩ = Except.ok 1 := by
  have h := update_patch_failure_semantics [["id", "v"], ["1", "x"]] ["id", "v"]
      [["1", "a"]] ["id"] "FAIL" ⟨true, [], fun _ => false, true⟩ ["id", "v"]
      [["1", "x"]] [] [0] (by rfl) (by rfl)
  refine ⟨?_, ?_⟩
  · rw [h.1]
    exact rfl
  · rw [h.2.1 rfl]
    exact rfl

/-! ## C10: CSV save emits the sorted union of field names -/

theorem mem_pySetAdd {s : List String} {x y : String} :
    y ∈ pySetAdd s x ↔ y ∈ s ∨ y = x := by
  by_cases hx : x ∈ s
  · simp only [pySetAdd, hx, if_true]
    exact ⟨Or.inl, fun h => h.elim id (fun he => he ▸ hx)⟩
  · simp [pySetAdd, hx]

theorem nodup_pySetAdd {s : List String} {x : String} (h : s.Nodup) :
    (pySetAdd s x).Nodup := by
  by_cases hx : x ∈ s
  · simpa [pySetAdd, hx] using h
  · simp [pySetAdd, hx, List.nodup_append, h]

theorem mem_keysFold (ks : List String) : ∀ (s : List String) (y : String),
    y ∈ ks.foldl pySetAdd s ↔ y ∈ s ∨ y ∈ ks := by
  induction ks with
  | nil => simp
  | cons k ks ih =>
    intro s y
    rw [List.foldl_cons, ih, mem_pySetAdd]
    simp only [List.mem_cons]
    tauto

theorem nodup_keysFold (ks : List String) :
    ∀ s : List String, s.Nodup → (ks.foldl pySetAdd s).Nodup := by
  induction ks with
  | nil => exact fun s h => h
  | cons k ks ih =>
    intro s h
    exact ih _ (nodup_pySetAdd h)

theorem mem_keyUnion_aux (records : List Record) : ∀ (s : List String) (y : String),
    y ∈ records.foldl (fun s r => (r.map Prod.fst).foldl pySetAdd s) s
      ↔ y ∈ s ∨ ∃ r ∈ records, y ∈ r.map Prod.fst := by
  induction records with
  | nil => simp
  | cons r rs ih =>
    intro s y
    rw [List.foldl_cons, ih, mem_keysFold]
    simp only [List.mem_cons]
    constructor
    · rintro (⟨hy | hy⟩ | ⟨r', hr', hy⟩)
      · exact Or.inl hy
      · exact Or.inr ⟨r, Or.inl rfl, hy⟩
      · exact Or.inr ⟨r', Or.inr hr', hy⟩
    · rintro (hy | ⟨r', rfl | hr', hy⟩)
      · exact Or.inl (Or.inl hy)
      · exact Or.inl (Or.inr hy)
      · exact Or.inr ⟨r', hr', hy⟩

theorem mem_keyUnion {records : List Record} {y : String} :
    y ∈ keyUnion records ↔ ∃ r ∈ records, y ∈ r.map Prod.fst := by
  have h := mem_keyUnion_aux records [] y
  simpa [keyUnion] using h

theorem nodup_keyUnion (records : List Record) : (keyUnion records).Nodup := by
  have haux : ∀ (rs : List Record) (s : List String), s.Nodup →
      (rs.foldl (fun s r => (r.map Prod.fst).foldl pySetAdd s) s).Nodup := by
    intro rs
    induction rs with
    | nil => exact fun s h => h
    | cons r rs ih =>
      intro s h
      exact ih _ (nodup_keysFold _ _ h)
  exact haux records [] List.nodup_nil

theorem sortStrings_sorted (l : List String) :
    List.Sorted (· ≤ ·) (sortStrings l) :=
  List.sorted_insertionSort _ l

theorem sortStrings_perm (l : List String) : (sortStrings l).Perm l :=
  List.perm_insertionSort _ l

theorem sortStrings_eq_of_perm {l1 l2 : List String} (h : l1.Perm l2) :
    sortStrings l1 = sortStrings l2 :=
  List.eq_of_perm_of_sorted
    ((sortStrings_perm l1).trans (h.trans (sortStrings_perm l2).symm))
    (sortStrings_sorted l1) (sortStrings_sorted l2)

theorem keyUnion_mem_iff_of_forall₂ {records records' : List Record}
    (h : List.Forall₂ (fun r r' => r.Perm r') records records') (y : String) :
    (∃ r ∈ records, y ∈ r.map Prod.fst) ↔ ∃ r' ∈ records', y ∈ r'.map Prod.fst := by
  induction h with
  | nil => simp
  | @cons a b l1 l2 hab htail ih =>
    constructor
    · rintro ⟨r, hr, hy⟩
      rcases List.mem_cons.mp hr with rfl | hr'
      · exact ⟨b, List.mem_cons_self _ _, (hab.map Prod.fst).mem_iff.mp hy⟩
      · obtain ⟨r', hr'', hy'⟩ := ih.mp ⟨r, hr', hy⟩
        exact ⟨r', List.mem_cons_of_mem _ hr'', hy'⟩
    · rintro ⟨r', hr, hy⟩
      rcases List.mem_cons.mp hr with rfl | hr'
      · exact ⟨a, List.mem_cons_self _ _, (hab.map Prod.fst).mem_iff.mpr hy⟩
      · obtain ⟨r, hr'', hy'⟩ := ih.mpr ⟨r', hr', hy⟩
        exact ⟨r, List.mem_cons_of_mem _ hr'', hy'⟩

/-- C10: saving CSV-backed merged data writes the header row as the
alphabetically sorted, duplicate-free union of all field names occurring in
any record, every saved row lists the record's value (empty-string default)
for the j-th sorted field name in position j, and the inferred field names do
not depend on the column order of the input (permuting each record's fields
leaves them unchanged). -/
theorem save_file_sorted_union (records records' : List Record)
    (hperm : List.Forall₂ (fun r r' => r.Perm r') records records') :
    save_file_output records
        = infer_field_names records
            :: records.map (save_row (infer_field_names records))
    ∧ List.Sorted (· ≤ ·) (infer_field_names records)
    ∧ (infer_field_names records).Nodup
    ∧ (∀ f, f ∈ infer_field_names records ↔ ∃ r ∈ records, f ∈ r.map Prod.fst)
    ∧ infer_field_names records' = infer_field_names records
    ∧ (∀ (r : Record) (j : Nat) (f : String),
        (infer_field_names records).get? j = some f →
        (save_row (infer_field_names records) r).get? j = some (pyFindD r f "")) := by
  refine ⟨rfl, sortStrings_sorted _, ?_, ?_, ?_, ?_⟩
  · exact ((sortStrings_perm _).nodup_iff).mpr (nodup_keyUnion records)
  · intro f
    rw [infer_field_names, (sortStrings_perm _).mem_iff, mem_keyUnion]
  · unfold infer_field_names
    apply sortStrings_eq_of_perm
    rw [List.perm_ext_iff_of_nodup (nodup_keyUnion _) (nodup_keyUnion _)]
    intro y
    rw [mem_keyUnion, mem_keyUnion]
    exact (keyUnion_mem_iff_of_forall₂ hperm y).symm
  · intro r j f hj
    rw [save_row, List.get?_map, hj]
    rfl

/-- Witness for `save_file_sorted_union`: one record with fields in the order
`b, a` saves with header `["a", "b"]` and row `["2", "1"]`, and the permuted
input `a, b` infers the same field names. -/
theorem save_file_sorted_union_witness :
    infer_field_names [[("a", "2"), ("b", "1")]]
        = infer_field_names [[("b", "1"), ("a", "2")]]
    ∧ infer_field_names [[("b", "1"), ("a", "2")]] = ["a", "b"]
    ∧ save_file_output [[("b", "1"), ("a", "2")]] = [["a", "b"], ["2", "1"]] := by
  have h := save_file_sorted_union [[("b", "1"), ("a", "2")]]
      [[("a", "2"), ("b", "1")]] (List.Forall₂.cons (by decide) List.Forall₂.nil)
  have hnames : infer_field_names [[("b", "1"), ("a", "2")]] = ["a", "b"] := by
    simp only [infer_field_names, keyUnion, List.foldl_cons, List.foldl_nil,
      List.map_cons, List.map_nil, pySetAdd, sortStrings, List.insertionSort,
      List.orderedInsert]
    norm_num
    decide
  refine ⟨h.2.2.2.2.1, hnames, ?_⟩
  rw [save_file_output, hnames]
  simp only [List.map_cons, List.map_nil, save_row]
  decide

end LiquidLibrary
